import Mathlib

/-!
# Verification of the error tracking, alerting and fault-tolerance core

Shallow embedding of the error-tracking subsystem of the customer-solution
snapshot generator: `monitoring/error_tracker.py` (classifier, fingerprinter,
aggregator, tracker, statistics, export), `monitoring/alerting.py`
(`AlertAggregator`), and `utils/error_handling.py` (`safe_execute`,
`CircuitBreaker`).

Modelling conventions:
* Python `dict`s are association lists that preserve insertion order, exactly
  as CPython dicts do; `defaultdict(int)` increments are modelled by `bump`.
* Mutable heap objects (`ErrorRecord` instances shared between the aggregator
  cache and the history deque) are modelled by an explicit heap
  `recs : List (Nat × ErrorRecord)` of reference → value; a Python object
  reference is the `Nat` key.  Mutating a record through a reference is
  `amodify` on the heap.
* Timestamps (ISO strings compared chronologically in the source) are `Nat`
  seconds; float statistics are exact rationals (`Rat`).
* `uuid4` identifiers are modelled by a fresh-counter `next_ref`; SHA-256 in
  `generate_fingerprint` is modelled as the identity on the signature string
  (a collision-free hash abstraction).
* Wall-clock reads (`datetime.now()`, `time.time()`) are explicit `now`
  parameters threaded to each operation.
-/

namespace CustomerSnapshot

/-- Association-list lookup (first binding wins), modelling Python dict access. -/
def alookup {κ α : Type} [DecidableEq κ] : List (κ × α) → κ → Option α
  | [], _ => none
  | (k, v) :: rest, key => if k = key then some v else alookup rest key

/-- Lookup with default (Python `d.get(k, dflt)` / `defaultdict` read). -/
def alookupD {κ α : Type} [DecidableEq κ] (l : List (κ × α)) (key : κ) (dflt : α) : α :=
  (alookup l key).getD dflt

/-- Python dict assignment `d[k] = v`: overwrite in place when the key exists
(keeping its position), append otherwise. -/
def aset {κ α : Type} [DecidableEq κ] : List (κ × α) → κ → α → List (κ × α)
  | [], key, v => [(key, v)]
  | (k, w) :: rest, key, v =>
      if k = key then (key, v) :: rest else (k, w) :: aset rest key v

/-- Python `del d[k]` (dict keys are unique, so deleting every binding agrees). -/
def adel {κ α : Type} [DecidableEq κ] : List (κ × α) → κ → List (κ × α)
  | [], _ => []
  | (k, v) :: rest, key =>
      if k = key then adel rest key else (k, v) :: adel rest key

/-- Mutate the value bound to `key` in place (a Python attribute write through
an object reference held in the map). -/
def amodify {κ α : Type} [DecidableEq κ] : List (κ × α) → κ → (α → α) → List (κ × α)
  | [], _, _ => []
  | (k, v) :: rest, key, f =>
      if k = key then (k, f v) :: rest else (k, v) :: amodify rest key f

/-- `defaultdict(int)` increment: `d[k] += v`. -/
def bump {κ : Type} [DecidableEq κ] (l : List (κ × Nat)) (key : κ) (v : Nat) :
    List (κ × Nat) :=
  match alookup l key with
  | some n => aset l key (n + v)
  | none => l ++ [(key, v)]

/-- Does the character list start with the given pattern? -/
def headMatches : List Char → List Char → Bool
  | _, [] => true
  | [], _ :: _ => false
  | c :: cs, p :: ps => c = p && headMatches cs ps

/-- Python substring test `pat in text`, on character lists. -/
def hasSub (pat : List Char) : List Char → Bool
  | [] => pat.isEmpty
  | c :: cs => headMatches (c :: cs) pat || hasSub pat cs

/-- Python `pat in s`. -/
def strHas (s pat : String) : Bool := hasSub pat.data s.data

/-- ASCII lower-casing of one character (the inputs here are ASCII). -/
def charLower (c : Char) : Char :=
  if 65 ≤ c.toNat ∧ c.toNat ≤ 90 then Char.ofNat (c.toNat + 32) else c

/-- Python `s.lower()` (ASCII fragment). -/
def strLower (s : String) : String := String.mk (s.data.map charLower)

/-- Python slicing `s[:n]`. -/
def strTake (s : String) (n : Nat) : String := String.mk (s.data.take n)

/-- Python `s.split(sep)` for a one-character separator, on character lists. -/
def splitCh (sep : Char) : List Char → List (List Char)
  | [] => [[]]
  | c :: cs =>
      let r := splitCh sep cs
      if c = sep then [] :: r
      else
        match r with
        | [] => [[c]]
        | g :: gs => (c :: g) :: gs

/-- ASCII whitespace, for Python `str.strip()`. -/
def isWS (c : Char) : Bool :=
  c = ' ' || c = '\t' || c = '\n' || c = '\r' || c = '\x0b' || c = '\x0c'

/-- Python `line.strip()` on a character list. -/
def trimChars (l : List Char) : List Char :=
  ((l.dropWhile isWS).reverse.dropWhile isWS).reverse

/-- Python `"|".join(parts)`. -/
def joinBar : List String → String
  | [] => ""
  | [s] => s
  | s :: rest => s ++ "|" ++ joinBar rest

/-- Stable ascending insertion by a `Nat` key: the element is placed before the
first element with a key that is not smaller, so that equal keys keep their
original relative order — the semantics of Python's stable `sorted(key=...)`. -/
def insertAscBy {α : Type} (key : α → Nat) (x : α) : List α → List α
  | [] => [x]
  | y :: ys => if key x ≤ key y then x :: y :: ys else y :: insertAscBy key x ys

/-- Python `sorted(l, key=...)`: stable, ascending. -/
def sortAscBy {α : Type} (key : α → Nat) : List α → List α
  | [] => []
  | x :: xs => insertAscBy key x (sortAscBy key xs)

/-- Stable descending insertion by a `Nat` key: equal keys keep their original
relative order, as Python's `sorted(key=..., reverse=True)` does. -/
def insertDescBy {α : Type} (key : α → Nat) (x : α) : List α → List α
  | [] => [x]
  | y :: ys => if key y ≤ key x then x :: y :: ys else y :: insertDescBy key x ys

/-- Python `sorted(l, key=..., reverse=True)`: stable, descending. -/
def sortDescBy {α : Type} (key : α → Nat) : List α → List α
  | [] => []
  | x :: xs => insertDescBy key x (sortDescBy key xs)

/-- `ErrorSeverity` enum of `error_tracker.py`. -/
inductive ErrorSeverity where
  | debug | info | warning | error | critical | fatal
deriving DecidableEq

/-- The `.value` string of each severity member. -/
def ErrorSeverity.value : ErrorSeverity → String
  | .debug => "debug"
  | .info => "info"
  | .warning => "warning"
  | .error => "error"
  | .critical => "critical"
  | .fatal => "fatal"

/-- `ErrorCategory` enum of `error_tracker.py`. -/
inductive ErrorCategory where
  | authentication | authorization | validation | api_error | network_error
  | file_io | parsing_error | memory_error | timeout | configuration
  | dependency | business_logic | unknown
deriving DecidableEq

/-- The `.value` string of each category member. -/
def ErrorCategory.value : ErrorCategory → String
  | .authentication => "authentication"
  | .authorization => "authorization"
  | .validation => "validation"
  | .api_error => "api_error"
  | .network_error => "network_error"
  | .file_io => "file_io"
  | .parsing_error => "parsing_error"
  | .memory_error => "memory_error"
  | .timeout => "timeout"
  | .configuration => "configuration"
  | .dependency => "dependency"
  | .business_logic => "business_logic"
  | .unknown => "unknown"

/-- `ErrorContext` dataclass; `additional_data` values are stringified. -/
structure ErrorContext where
  user_id : Option String := none
  session_id : Option String := none
  request_id : Option String := none
  function_name : Option String := none
  module_name : Option String := none
  file_path : Option String := none
  line_number : Option Nat := none
  method : Option String := none
  url : Option String := none
  user_agent : Option String := none
  ip_address : Option String := none
  additional_data : List (String × String) := []
deriving DecidableEq

/-- `ErrorRecord` dataclass.  `id` is the modelled `uuid4` value, timestamps
are `Nat` seconds. -/
structure ErrorRecord where
  id : Nat
  timestamp : Nat
  severity : ErrorSeverity
  category : ErrorCategory
  message : String
  exception_type : String
  stack_trace : String
  context : ErrorContext
  fingerprint : String
  count : Nat
  first_seen : Nat
  last_seen : Nat
  resolved : Bool
  resolution_notes : Option String
deriving DecidableEq

/-- Default record used only as the `getD` fallback when dereferencing the heap
(live states never contain dangling references). -/
def blankRecord : ErrorRecord :=
  { id := 0, timestamp := 0, severity := .error, category := .unknown,
    message := "", exception_type := "", stack_trace := "",
    context := {}, fingerprint := "", count := 0, first_seen := 0,
    last_seen := 0, resolved := false, resolution_notes := none }

/-- `ErrorClassifier.classification_rules`, in declaration order. -/
def classification_rules : List (ErrorCategory × List String) :=
  [(.authentication, ["authentication", "auth", "login", "credential", "unauthorized", "401"]),
   (.authorization, ["authorization", "permission", "access denied", "forbidden", "403"]),
   (.validation, ["validation", "invalid", "schema", "format", "constraint", "400"]),
   (.api_error, ["api", "http", "rest", "endpoint", "service", "502", "503", "504"]),
   (.network_error, ["network", "connection", "timeout", "dns", "socket", "unreachable"]),
   (.file_io, ["file", "io", "read", "write", "permission", "not found", "disk"]),
   (.parsing_error, ["parse", "json", "xml", "csv", "format", "decode", "encode"]),
   (.memory_error, ["memory", "out of memory", "allocation", "heap", "oom"]),
   (.timeout, ["timeout", "deadline", "expired", "time limit"]),
   (.configuration, ["config", "setting", "parameter", "env", "missing"]),
   (.dependency, ["import", "module", "package", "dependency", "version"])]

/-- `ErrorClassifier.classify_error`: score each category by keyword hits in
the lower-cased concatenation; the first category with the maximal positive
score wins (Python `max` returns the first maximum in dict order). -/
def classify_error (error_message exception_type stack_trace : String) :
    ErrorCategory :=
  let text := strLower (error_message ++ " " ++ exception_type ++ " " ++ stack_trace)
  let category_scores := classification_rules.filterMap (fun p =>
    let score := (p.2.filter (fun kw => strHas text kw)).length
    if 0 < score then some (p.1, score) else none)
  match category_scores with
  | [] => ErrorCategory.unknown
  | c :: rest => (rest.foldl (fun best q => if best.2 < q.2 then q else best) c).1

/-- `ErrorClassifier.determine_severity`. -/
def determine_severity (exception_type error_message : String) : ErrorSeverity :=
  let et := strLower exception_type
  let ml := strLower error_message
  if (["systemerror", "memorytool", "keyboardinterrupt", "systemexit"].filter
      (fun k => strHas et k)) ≠ [] then .critical
  else if (["fatal", "critical", "emergency", "system failure"].filter
      (fun k => strHas ml k)) ≠ [] then .fatal
  else if (["error", "exception", "failure"].filter (fun k => strHas et k)) ≠ [] then .error
  else if (["warning", "deprecation"].filter (fun k => strHas et k)) ≠ [] then .warning
  else .error

/-- `ErrorAggregator.generate_fingerprint`: the joined signature (exception
type, message truncated to 200 chars, context function/module/line, up to
three stack lines that mention the application's own paths).  SHA-256 on the
signature is modelled as the identity. -/
def generate_fingerprint (error_message exception_type stack_trace : String)
    (context : ErrorContext) : String :=
  let signature_parts : List String :=
    [exception_type, strTake error_message 200,
     context.function_name.getD "", context.module_name.getD "",
     match context.line_number with
     | some n => if n = 0 then "" else Nat.repr n
     | none => ""]
  let stack_lines := ((splitCh '\n' stack_trace.data).filter (fun line =>
      hasSub "/customer_snapshot/".data line || hasSub "customer_snapshot".data line)).map
      (fun line => String.mk (trimChars line))
  joinBar (signature_parts ++ stack_lines.take 3)

/-- `ErrorAggregator` state.  `recs` is the modelled object heap
(reference → `ErrorRecord` value); `error_cache` maps a fingerprint to the
reference of its canonical record, in dict insertion order; `error_counts` is
the companion `defaultdict(int)`. -/
structure ErrorAggregator where
  max_errors : Nat
  recs : List (Nat × ErrorRecord)
  error_cache : List (String × Nat)
  error_counts : List (String × Nat)
deriving DecidableEq

/-- `ErrorAggregator.__init__`. -/
def ErrorAggregator.init (max_errors : Nat) : ErrorAggregator :=
  ⟨max_errors, [], [], []⟩

/-- Dereference the heap (total, with an inert fallback). -/
def ErrorAggregator.recAt (agg : ErrorAggregator) (ref : Nat) : ErrorRecord :=
  (alookup agg.recs ref).getD blankRecord

/-- `ErrorAggregator._cleanup_old_errors`: sort the cache by `last_seen`
ascending (Python's stable sort) and delete the oldest tenth from both dicts.
The heap is untouched: evicted records stay alive through history references. -/
def ErrorAggregator.cleanup (agg : ErrorAggregator) : ErrorAggregator :=
  let sorted_errors := sortAscBy (fun p => (agg.recAt p.2).last_seen) agg.error_cache
  let to_remove := (sorted_errors.take (sorted_errors.length / 10)).map Prod.fst
  { agg with
    error_cache := to_remove.foldl adel agg.error_cache,
    error_counts := to_remove.foldl adel agg.error_counts }

/-- `ErrorAggregator.add_error`: if the fingerprint is cached, increment the
existing record's count, refresh `last_seen` from the candidate's timestamp
and return the existing reference; otherwise insert the candidate and return
it, running eviction when the cache has grown past `max_errors`. -/
def ErrorAggregator.add_error (agg : ErrorAggregator) (error_record : ErrorRecord) :
    Nat × ErrorAggregator :=
  let fingerprint := error_record.fingerprint
  match alookup agg.error_cache fingerprint with
  | some ref =>
      (ref,
        { agg with
          recs := amodify agg.recs ref (fun r =>
            { r with count := r.count + 1, last_seen := error_record.timestamp }),
          error_counts := bump agg.error_counts fingerprint 1 })
  | none =>
      let agg' : ErrorAggregator :=
        { agg with
          recs := agg.recs ++ [(error_record.id, error_record)],
          error_cache := agg.error_cache ++ [(fingerprint, error_record.id)],
          error_counts := agg.error_counts ++ [(fingerprint, 1)] }
      (error_record.id,
        if agg.max_errors < agg'.error_cache.length then agg'.cleanup else agg')

/-- `ErrorAggregator.get_top_errors`: Python's stable descending sort on
`count`, then the first `limit` records. -/
def ErrorAggregator.get_top_errors (agg : ErrorAggregator) (limit : Nat) :
    List ErrorRecord :=
  let sorted_errors := sortDescBy (fun p => (agg.recAt p.2).count) agg.error_cache
  (sorted_errors.take limit).map (fun p => agg.recAt p.2)

/-- `Alert` dataclass of `system_monitor.py` (the fields `_check_alert_conditions`
fills; detail values are stringified). -/
structure Alert where
  name : String
  level : String
  message : String
  timestamp : Nat
  details : List (String × String)
deriving DecidableEq

/-- One entry of `ErrorStats.top_errors` (the dict built in
`_update_statistics`). -/
structure TopErrorEntry where
  fingerprint : String
  message : String
  count : Nat
  severity : String
  category : String
  last_seen : Nat
deriving DecidableEq

/-- One entry of `get_error_trends` (kept for the `error_trends` field, which
`_update_statistics` never writes). -/
structure TrendEntry where
  date : String
  total_errors : Nat
  critical_errors : Nat
  error_rate : Rat
  top_category : String
deriving DecidableEq

/-- `ErrorStats` dataclass; float fields are exact rationals. -/
structure ErrorStats where
  total_errors : Nat
  error_rate : Rat
  errors_by_severity : List (String × Nat)
  errors_by_category : List (String × Nat)
  top_errors : List TopErrorEntry
  error_trends : List TrendEntry
  resolution_rate : Rat
  mean_time_to_resolution : Rat
deriving DecidableEq

/-- The all-zero `ErrorStats` built in `ErrorTracker.__init__`. -/
def initialStats : ErrorStats := ⟨0, 0, [], [], [], [], 0, 0⟩

/-- `ErrorTracker` state.  `error_history` is the 50k-bounded deque of
references to the (shared, mutable) records returned by `add_error`;
`dispatched` is the log of alerts delivered to the callback installed via
`set_alert_callback` (`callback_set`). -/
structure ErrorTracker where
  aggregator : ErrorAggregator
  error_history : List Nat
  error_stats : ErrorStats
  next_ref : Nat
  callback_set : Bool
  dispatched : List Alert
deriving DecidableEq

/-- `ErrorTracker.__init__` (aggregator capacity 10000, empty history),
with the alert callback optionally already installed. -/
def ErrorTracker.init (callback_set : Bool) : ErrorTracker :=
  ⟨ErrorAggregator.init 10000, [], initialStats, 0, callback_set, []⟩

/-- `ErrorTracker.set_alert_callback`. -/
def ErrorTracker.set_alert_callback (st : ErrorTracker) : ErrorTracker :=
  { st with callback_set := true }

/-- `ErrorTracker._check_alert_conditions`: with a callback installed, a
CRITICAL/FATAL record dispatches a `critical_error` alert directly, and more
than 20 history entries whose creation timestamp lies in the trailing 10
minutes dispatch an `error_spike` alert.  Neither path consults
`AlertAggregator.should_send_alert`. -/
def ErrorTracker.check_alert_conditions (st : ErrorTracker) (ref : Nat) (now : Nat) :
    ErrorTracker :=
  if st.callback_set then
    let error := st.aggregator.recAt ref
    let st1 :=
      if error.severity = .critical ∨ error.severity = .fatal then
        { st with dispatched := st.dispatched ++
          [⟨"critical_error", "CRITICAL",
            "Critical error detected: " ++ error.message, error.timestamp,
            [("error_id", Nat.repr error.id),
             ("exception_type", error.exception_type),
             ("category", error.category.value),
             ("fingerprint", error.fingerprint),
             ("count", Nat.repr error.count)]⟩] }
      else st
    let recent := st1.error_history.filter (fun h =>
      now - 600 < (st1.aggregator.recAt h).timestamp)
    if 20 < recent.length then
      { st1 with dispatched := st1.dispatched ++
        [⟨"error_spike", "WARNING",
          "Error spike detected: " ++ Nat.repr recent.length ++ " errors in 10 minutes",
          now,
          [("error_count", Nat.repr recent.length), ("window_minutes", "10")]⟩] }
    else st1
  else st

/-- `ErrorTracker.track_error`: classify when severity/category are not given,
build the candidate record (fresh id, all timestamps `now`), aggregate it,
append the canonical reference to the bounded history, then check alert
conditions.  Returns the canonical reference. -/
def ErrorTracker.track_error (st : ErrorTracker)
    (error_message exception_type stack_trace : String)
    (context : Option ErrorContext) (severity : Option ErrorSeverity)
    (category : Option ErrorCategory) (now : Nat) : Nat × ErrorTracker :=
  let context := context.getD {}
  let severity := severity.getD (determine_severity exception_type error_message)
  let category := category.getD (classify_error error_message exception_type stack_trace)
  let error_record : ErrorRecord :=
    { id := st.next_ref, timestamp := now, severity := severity,
      category := category, message := error_message,
      exception_type := exception_type, stack_trace := stack_trace,
      context := context,
      fingerprint := generate_fingerprint error_message exception_type stack_trace context,
      count := 1, first_seen := now, last_seen := now,
      resolved := false, resolution_notes := none }
  let p := st.aggregator.add_error error_record
  let hist := st.error_history ++ [p.1]
  let hist := if 50000 < hist.length then hist.drop 1 else hist
  let st' := { st with
    aggregator := p.2
    error_history := hist
    next_ref := st.next_ref + 1 }
  (p.1, st'.check_alert_conditions p.1 now)

/-- A raised Python exception as `track_exception` sees it: `str(e)`,
`type(e).__name__` and `traceback.format_exc()`. -/
structure PyException where
  message : String
  exception_type : String
  stack_trace : String
deriving DecidableEq

/-- `ErrorTracker.track_exception`. -/
def ErrorTracker.track_exception (st : ErrorTracker) (e : PyException)
    (context : Option ErrorContext) (now : Nat) : Nat × ErrorTracker :=
  st.track_error e.message e.exception_type e.stack_trace context none none now

/-- Python truthiness of `error.resolution_notes` (`None` and `""` are falsy). -/
def notesNonempty : Option String → Bool
  | none => false
  | some s => if s = "" then false else true

/-- The records the history references, in history order (the same record
appears once per tracked occurrence). -/
def ErrorTracker.historyRecords (st : ErrorTracker) : List ErrorRecord :=
  st.error_history.map st.aggregator.recAt

/-- `ErrorTracker._update_statistics`: recompute the `ErrorStats` snapshot
from the history at time `now`.  `mean_time_to_resolution` keeps its previous
value when no resolved record passes the non-empty-notes filter. -/
def ErrorTracker.update_statistics (st : ErrorTracker) (now : Nat) : ErrorTracker :=
  let entries := st.historyRecords
  let recent_errors := entries.filter (fun e => now - 3600 < e.timestamp)
  let daily_errors := entries.filter (fun e => now - 86400 < e.timestamp)
  let severity_counts :=
    daily_errors.foldl (fun acc e => bump acc e.severity.value e.count) []
  let category_counts :=
    daily_errors.foldl (fun acc e => bump acc e.category.value e.count) []
  let top_errors := (st.aggregator.get_top_errors 10).map (fun e =>
    (⟨e.fingerprint, strTake e.message 100, e.count, e.severity.value,
      e.category.value, e.last_seen⟩ : TopErrorEntry))
  let resolved_errors := entries.filter (fun e => e.resolved)
  let resolution_times := resolved_errors.filterMap (fun e =>
    if notesNonempty e.resolution_notes
    then some (((e.last_seen - e.first_seen : Nat) : Rat)) else none)
  let stats0 := st.error_stats
  let stats : ErrorStats :=
    { stats0 with
      total_errors := entries.length,
      error_rate := (recent_errors.length : Rat) / 3600,
      errors_by_severity := severity_counts,
      errors_by_category := category_counts,
      top_errors := top_errors,
      resolution_rate := (resolved_errors.length : Rat) / ((max entries.length 1 : Nat) : Rat),
      mean_time_to_resolution :=
        if resolution_times.isEmpty then stats0.mean_time_to_resolution
        else resolution_times.sum / (resolution_times.length : Rat) }
  { st with error_stats := stats }

/-- The reference found by `ErrorTracker.get_error_by_id`'s linear scan of the
history (the first history entry whose record carries the wanted id). -/
def ErrorTracker.findRef (st : ErrorTracker) (error_id : Nat) : Option Nat :=
  st.error_history.find? (fun h => (st.aggregator.recAt h).id == error_id)

/-- `ErrorTracker.get_error_by_id`. -/
def ErrorTracker.get_error_by_id (st : ErrorTracker) (error_id : Nat) :
    Option ErrorRecord :=
  (st.findRef error_id).map st.aggregator.recAt

/-- `ErrorTracker.resolve_error`: mark the found record resolved in place
(through its reference) and return `true`; return `false` otherwise. -/
def ErrorTracker.resolve_error (st : ErrorTracker) (error_id : Nat)
    (resolution_notes : String) : Bool × ErrorTracker :=
  match st.findRef error_id with
  | some ref =>
      (true,
        { st with aggregator := { st.aggregator with
            recs := amodify st.aggregator.recs ref (fun r =>
              { r with resolved := true, resolution_notes := some resolution_notes }) } })
  | none => (false, st)

/-- What `export_errors` writes: the JSON payload, or the CSV header plus data
rows. -/
inductive FileContent where
  | jsonExport (export_timestamp : Nat) (total_errors : Nat)
      (statistics : ErrorStats) (errors : List ErrorRecord)
  | csvFile (header : List String) (rows : List (List String))
deriving DecidableEq

/-- The observable effect of `export_errors`: what was written (if anything)
and the returned path. -/
structure ExportEffect where
  written : Option FileContent
  returned : String
deriving DecidableEq

/-- Python `str(bool)`. -/
def boolRepr : Bool → String
  | true => "True"
  | false => "False"

/-- The CSV header row written by `export_errors`. -/
def csvHeader : List String :=
  ["ID", "Timestamp", "Severity", "Category", "Message", "Exception Type",
   "Count", "Resolved", "Function", "Module"]

/-- One CSV data row of `export_errors`. -/
def csvRow (e : ErrorRecord) : List String :=
  [Nat.repr e.id, Nat.repr e.timestamp, e.severity.value, e.category.value,
   e.message, e.exception_type, Nat.repr e.count, boolRepr e.resolved,
   e.context.function_name.getD "", e.context.module_name.getD ""]

/-- `ErrorTracker.export_errors`: `format == "json"` writes the JSON payload,
`format == "csv"` writes the header plus one row per history entry, and any
other format falls through both branches — the function completes normally
(`.ok`) having written nothing.  The `Except` layer records that the source
has no raising path for an unsupported format. -/
def ErrorTracker.export_errors (st : ErrorTracker) (output_file format : String)
    (now : Nat) : Except String ExportEffect :=
  if format = "json" then
    .ok ⟨some (.jsonExport now st.error_history.length st.error_stats
      st.historyRecords), output_file⟩
  else if format = "csv" then
    .ok ⟨some (.csvFile csvHeader (st.historyRecords.map csvRow)), output_file⟩
  else
    .ok ⟨none, output_file⟩

/-- The `ErrorContext` that `safe_execute` builds for a failed attempt:
the attempt metadata lives only in `additional_data`. -/
def safeExecuteContext (func_name : String) (attempt max_attempts : Nat) :
    ErrorContext :=
  { function_name := some func_name,
    additional_data :=
      [("attempt", Nat.repr attempt), ("max_attempts", Nat.repr max_attempts),
       ("safe_execute", "True")] }

/-- The attempt loop of `safe_execute`.  `op attempt` is the wrapped call's
outcome on the given (0-based) attempt; each failure is tracked through
`track_exception` before the next attempt. -/
def safeExecuteGo {α : Type} (op : Nat → Except PyException α)
    (func_name : String) (fallback_value : α) (max_attempts : Nat) (now : Nat) :
    Nat → Nat → ErrorTracker → α × ErrorTracker
  | 0, _, tr => (fallback_value, tr)
  | rem + 1, attempt, tr =>
      match op attempt with
      | .ok v => (v, tr)
      | .error e =>
          let p := tr.track_exception e
            (some (safeExecuteContext func_name (attempt + 1) max_attempts)) now
          safeExecuteGo op func_name fallback_value max_attempts now rem
            (attempt + 1) p.2

/-- `safe_execute(func, fallback_value=..., retry_count=...)` of
`error_handling.py`: up to `retry_count + 1` attempts; a success returns the
operation's result at once, each failure is tracked, and the fallback value is
returned only after every attempt failed. -/
def safe_execute {α : Type} (tr : ErrorTracker) (op : Nat → Except PyException α)
    (func_name : String) (fallback_value : α) (retry_count : Nat) (now : Nat) :
    α × ErrorTracker :=
  safeExecuteGo op func_name fallback_value (retry_count + 1) now
    (retry_count + 1) 0 tr

/-- One entry of `AlertAggregator.alert_cache`. -/
structure AlertCacheEntry where
  count : Nat
  last_sent : Nat
  last_seen : Nat
  first_seen : Nat
deriving DecidableEq

/-- `AlertAggregator.aggregation_window` (hard-coded 300 s). -/
def aggregation_window : Nat := 300

/-- `AlertAggregator.max_cache_size` (hard-coded 1000 entries). -/
def alert_max_cache_size : Nat := 1000

/-- `AlertAggregator` state of `alerting.py`. -/
structure AlertAggregator where
  alert_cache : List (String × AlertCacheEntry)
deriving DecidableEq

/-- `AlertAggregator._cleanup_cache`: nothing happens until the cache exceeds
its maximum size; then entries last seen before `now − 2·window` are purged. -/
def AlertAggregator.cleanup_cache (agg : AlertAggregator) (now : Nat) :
    AlertAggregator :=
  if agg.alert_cache.length ≤ alert_max_cache_size then agg
  else ⟨agg.alert_cache.filter (fun p =>
    !(p.2.last_seen < now - aggregation_window * 2))⟩

/-- `AlertAggregator.should_send_alert`: keyed by `name:level`.  A cached key
last sent within the window is suppressed — its count is bumped and
`last_seen` refreshed, and `false` is returned.  Otherwise the entry is reset
to a fresh sent marker, the cache is cleaned, and `true` is returned. -/
def AlertAggregator.should_send_alert (agg : AlertAggregator) (alert : Alert)
    (now : Nat) : Bool × AlertAggregator :=
  let cache_key := alert.name ++ ":" ++ alert.level
  let suppressed : Option AlertAggregator :=
    match alookup agg.alert_cache cache_key with
    | some entry =>
        if now - entry.last_sent < aggregation_window then
          some ⟨aset agg.alert_cache cache_key
            { entry with count := entry.count + 1, last_seen := now }⟩
        else none
    | none => none
  match suppressed with
  | some agg' => (false, agg')
  | none =>
      let agg' : AlertAggregator :=
        ⟨aset agg.alert_cache cache_key ⟨1, now, now, now⟩⟩
      (true, agg'.cleanup_cache now)

/-- `CircuitBreaker` states (`'closed'`, `'open'`, `'half-open'`). -/
inductive CBState where
  | closed | opened | halfOpen
deriving DecidableEq

/-- `CircuitBreaker` instance state of `error_handling.py`.
`last_failure_time` starts at 0 and is only consulted once the breaker has
opened (which always sets it first). -/
structure CircuitBreaker where
  failure_threshold : Nat
  recovery_timeout : Nat
  failure_count : Nat
  last_failure_time : Nat
  state : CBState
deriving DecidableEq

/-- `CircuitBreaker.__init__`. -/
def CircuitBreaker.make (failure_threshold recovery_timeout : Nat) :
    CircuitBreaker :=
  ⟨failure_threshold, recovery_timeout, 0, 0, .closed⟩

/-- `CircuitBreaker._should_attempt_reset`. -/
def CircuitBreaker.should_attempt_reset (cb : CircuitBreaker) (now : Nat) : Bool :=
  cb.recovery_timeout ≤ now - cb.last_failure_time

/-- `CircuitBreaker._on_success`. -/
def CircuitBreaker.on_success (cb : CircuitBreaker) : CircuitBreaker :=
  { cb with failure_count := 0, state := .closed }

/-- `CircuitBreaker._on_failure`. -/
def CircuitBreaker.on_failure (cb : CircuitBreaker) (now : Nat) : CircuitBreaker :=
  let cb := { cb with failure_count := cb.failure_count + 1, last_failure_time := now }
  if cb.failure_threshold ≤ cb.failure_count then { cb with state := .opened } else cb

/-- Outcome of one call through the circuit-breaker wrapper:
the wrapped operation's success, its (expected) failure re-raised, or the
fast-fail "Circuit breaker is OPEN" exception. -/
inductive CBOutcome where
  | success | opFailure | circuitOpen
deriving DecidableEq

/-- One call through the `CircuitBreaker.__call__` wrapper at time `now`;
`op_succeeds` is the wrapped operation's behaviour if it gets invoked.
Returns (outcome, whether the wrapped function was invoked, new state). -/
def CircuitBreaker.call (cb : CircuitBreaker) (now : Nat) (op_succeeds : Bool) :
    CBOutcome × Bool × CircuitBreaker :=
  let gate : Option CircuitBreaker :=
    if cb.state = .opened then
      if cb.should_attempt_reset now then some { cb with state := .halfOpen }
      else none
    else some cb
  match gate with
  | none => (.circuitOpen, false, cb)
  | some cb1 =>
      if op_succeeds then (.success, true, cb1.on_success)
      else (.opFailure, true, cb1.on_failure now)

/-- Reachable aggregator states: the empty initial state, followed by any
number of `add_error` calls (candidates are the fresh records `track_error`
builds: `count = 1` and a heap-fresh id) and stand-alone cleanup passes. -/
inductive AggReachable : ErrorAggregator → Prop where
  | init (max_errors : Nat) : AggReachable (ErrorAggregator.init max_errors)
  | step (agg : ErrorAggregator) (rec : ErrorRecord) :
      AggReachable agg → rec.count = 1 → alookup agg.recs rec.id = none →
      AggReachable (agg.add_error rec).2
  | cleanup (agg : ErrorAggregator) :
      AggReachable agg → AggReachable agg.cleanup

/-- Repeat `track_error` with one fixed signature, once per timestamp in the
list; returns the final state and the references the calls returned. -/
def trackRepeat (msg exc stack : String) (ctx : ErrorContext)
    (sev : Option ErrorSeverity) (cat : Option ErrorCategory) :
    List Nat → ErrorTracker → ErrorTracker × List Nat
  | [], st => (st, [])
  | t :: ts, st =>
      let p := st.track_error msg exc stack (some ctx) sev cat t
      let q := trackRepeat msg exc stack ctx sev cat ts p.2
      (q.1, p.1 :: q.2)

/-- The candidate record `track_error` builds on a call with the given
arguments when the tracker's fresh counter is `n`. -/
def firstRecord (msg exc stack : String) (ctx : ErrorContext)
    (sev : Option ErrorSeverity) (cat : Option ErrorCategory) (t n : Nat) :
    ErrorRecord :=
  { id := n, timestamp := t,
    severity := sev.getD (determine_severity exc msg),
    category := cat.getD (classify_error msg exc stack),
    message := msg, exception_type := exc, stack_trace := stack,
    context := ctx,
    fingerprint := generate_fingerprint msg exc stack ctx,
    count := 1, first_seen := t, last_seen := t,
    resolved := false, resolution_notes := none }

/-- The ordering the specification claims for `get_top_errors`: count
descending with ties broken by most-recent `last_seen` descending. -/
def spec_top_order (a b : ErrorRecord) : Prop :=
  b.count < a.count ∨ (a.count = b.count ∧ b.last_seen ≤ a.last_seen)

instance : DecidableRel spec_top_order := fun a b => by
  unfold spec_top_order
  infer_instance

/-- First-occurrence deduplication of the history's references. -/
def dedupRefs (l : List Nat) : List Nat :=
  l.foldl (fun acc x => if acc.contains x then acc else acc ++ [x]) []

/-- The specification's reading of `mean_time_to_resolution`: the average of
`last_seen − first_seen` over the DISTINCT resolved records with non-empty
resolution notes (each record counted once, however often it recurred). -/
def spec_mean_over_records (st : ErrorTracker) : Rat :=
  let rs := ((dedupRefs st.error_history).map st.aggregator.recAt).filter
    (fun e => e.resolved && notesNonempty e.resolution_notes)
  (rs.map (fun e => ((e.last_seen - e.first_seen : Nat) : Rat))).sum /
    ((rs.length : Nat) : Rat)

/-! ## Concrete states used by the counterexamples and witnesses -/

/-- Tracker (with the alert callback installed) after two CRITICAL
occurrences of the same error 100 s apart. -/
def twoCriticalTracker : ErrorTracker :=
  let st0 := ErrorTracker.init true
  let p1 := st0.track_error "boom" "CritError" "tb" none (some .critical)
    (some .unknown) 1000
  let p2 := p1.2.track_error "boom" "CritError" "tb" none (some .critical)
    (some .unknown) 1100
  p2.2

/-- Tracker after the same error was tracked twice (record count 2, two
history occurrences, both inside every statistics window at `now = 300`). -/
def doubleTrackedTracker : ErrorTracker :=
  let st0 := ErrorTracker.init false
  let p1 := st0.track_error "boom" "E" "tb" none (some .error) (some .unknown) 100
  let p2 := p1.2.track_error "boom" "E" "tb" none (some .error) (some .unknown) 200
  p2.2

/-- Tracker with record `a` tracked twice (resolution span 100 s) and record
`b` tracked once (span 0 s), both resolved with non-empty notes. -/
def resolutionTracker : ErrorTracker :=
  let st0 := ErrorTracker.init false
  let p1 := st0.track_error "a" "E" "tb" none (some .error) (some .unknown) 100
  let p2 := p1.2.track_error "a" "E" "tb" none (some .error) (some .unknown) 200
  let p3 := p2.2.track_error "b" "E" "tb" none (some .error) (some .unknown) 150
  let q1 := p3.2.resolve_error 0 "fixed"
  let q2 := q1.2.resolve_error 2 "done"
  q2.2

/-- Two records with equal count; the earlier-inserted one has the older
`last_seen`. -/
def tieRecordA : ErrorRecord :=
  { blankRecord with id := 0, fingerprint := "fa", count := 1, last_seen := 10 }

/-- See `tieRecordA`. -/
def tieRecordB : ErrorRecord :=
  { blankRecord with id := 1, fingerprint := "fb", count := 1, last_seen := 20 }

/-- Aggregator holding `tieRecordA` then `tieRecordB`, in that insertion
order. -/
def tieAggregator : ErrorAggregator :=
  (((ErrorAggregator.init 10000).add_error tieRecordA).2.add_error tieRecordB).2

/-- The exception an always-failing operation raises in the `safe_execute`
examples. -/
def sampleException : PyException := ⟨"oops", "ValueError", "tb"⟩

/-- `safe_execute` over an operation that fails on both of its
`retry_count = 1` + 1 attempts. -/
def failingSafeExecute : Nat × ErrorTracker :=
  safe_execute (ErrorTracker.init false) (fun _ => .error sampleException)
    "myop" 42 1 500

/-- A threshold-3 breaker after three consecutive failing calls at times
`t1, t2, t3`. -/
def cbFail3 (T t1 t2 t3 : Nat) : CircuitBreaker :=
  (((((CircuitBreaker.make 3 T).call t1 false).2.2.call t2 false).2.2).call t3 false).2.2

/-- The inductive invariant of the aggregator maps: `error_counts` is the
image of `error_cache` under "count of the referenced record", cache keys and
cached references are duplicate-free, and every cached reference is live in
the heap. -/
def AggInv (agg : ErrorAggregator) : Prop :=
  agg.error_counts = agg.error_cache.map (fun p => (p.1, (agg.recAt p.2).count)) ∧
  (agg.error_cache.map Prod.fst).Nodup ∧
  (agg.error_cache.map Prod.snd).Nodup ∧
  ∀ p ∈ agg.error_cache, (alookup agg.recs p.2).isSome

/-! ## Association-list lemmas -/

theorem alookup_aset_self {κ α : Type} [DecidableEq κ] (l : List (κ × α))
    (k : κ) (v : α) : alookup (aset l k v) k = some v := by
  induction l with
  | nil => simp [aset, alookup]
  | cons p rest ih =>
      by_cases h : p.1 = k
      · simp [aset, h, alookup]
      · simp [aset, h, alookup, ih]

theorem alookup_aset_ne {κ α : Type} [DecidableEq κ] (l : List (κ × α))
    (k k' : κ) (v : α) (h : k' ≠ k) :
    alookup (aset l k v) k' = alookup l k' := by
  induction l with
  | nil => simp [aset, alookup, Ne.symm h]
  | cons p rest ih =>
      by_cases hp : p.1 = k
      · simp [aset, hp, alookup, Ne.symm h]
      · simp [aset, hp, alookup, ih]

theorem alookup_amodify_self {κ α : Type} [DecidableEq κ] (l : List (κ × α))
    (k : κ) (f : α → α) :
    alookup (amodify l k f) k = (alookup l k).map f := by
  induction l with
  | nil => simp [amodify, alookup]
  | cons p rest ih =>
      by_cases h : p.1 = k
      · simp [amodify, h, alookup]
      · simp [amodify, h, alookup, ih]

theorem alookup_amodify_ne {κ α : Type} [DecidableEq κ] (l : List (κ × α))
    (k k' : κ) (f : α → α) (h : k' ≠ k) :
    alookup (amodify l k f) k' = alookup l k' := by
  induction l with
  | nil => simp [amodify, alookup]
  | cons p rest ih =>
      by_cases hp : p.1 = k
      · simp [amodify, hp, alookup, Ne.symm h, ih]
      · simp [amodify, hp, alookup, ih]

theorem alookup_append {κ α : Type} [DecidableEq κ] (l l' : List (κ × α))
    (k : κ) :
    alookup (l ++ l') k =
      match alookup l k with
      | some v => some v
      | none => alookup l' k := by
  induction l with
  | nil => simp [alookup]
  | cons p rest ih =>
      by_cases h : p.1 = k
      · simp [alookup, h]
      · simp [alookup, h, ih]

theorem alookup_filter {κ α : Type} [DecidableEq κ] (l : List (κ × α))
    (p : κ × α → Bool) (k : κ) (v : α) (hfound : alookup l k = some v)
    (hkeep : p (k, v) = true) :
    alookup (l.filter p) k = some v := by
  induction l with
  | nil => simp [alookup] at hfound
  | cons q rest ih =>
      by_cases hq : q.1 = k
      · simp [alookup, hq] at hfound
        have : q = (k, v) := by
          cases q
          simp_all
        subst this
        simp [List.filter, hkeep, alookup]
      · simp [alookup, hq] at hfound
        rcases hp : p q with _ | _
        · simp [List.filter, hp, ih hfound]
        · simp [List.filter, hp, alookup, hq, ih hfound]

theorem alookup_map_of_alookup {κ α β : Type} [DecidableEq κ]
    (g : κ × α → β) (l : List (κ × α)) (k : κ) (v : α)
    (h : alookup l k = some v) :
    alookup (l.map fun p => (p.1, g p)) k = some (g (k, v)) := by
  induction l with
  | nil => simp [alookup] at h
  | cons q rest ih =>
      by_cases hq : q.1 = k
      · simp [alookup, hq] at h
        have : q = (k, v) := by
          cases q
          simp_all
        subst this
        simp [alookup]
      · simp [alookup, hq] at h
        simp [alookup, hq, ih h]

theorem alookup_mem {κ α : Type} [DecidableEq κ] (l : List (κ × α)) (k : κ)
    (v : α) (h : alookup l k = some v) : (k, v) ∈ l := by
  induction l with
  | nil => simp [alookup] at h
  | cons q rest ih =>
      by_cases hq : q.1 = k
      · simp [alookup, hq] at h
        have hqv : q = (k, v) := by
          cases q
          simp_all
        rw [← hqv]
        exact List.mem_cons_self _ _
      · simp [alookup, hq] at h
        exact List.mem_cons_of_mem _ (ih h)

theorem alookup_none_not_mem {κ α : Type} [DecidableEq κ] (l : List (κ × α))
    (k : κ) (h : alookup l k = none) : k ∉ l.map Prod.fst := by
  induction l with
  | nil => simp
  | cons q rest ih =>
      by_cases hq : q.1 = k
      · simp [alookup, hq] at h
      · simp [alookup, hq] at h
        simp [ih h]
        exact fun hh => hq hh.symm

theorem alookup_isSome_amodify {κ α : Type} [DecidableEq κ] (l : List (κ × α))
    (k k' : κ) (f : α → α) :
    (alookup (amodify l k f) k').isSome = (alookup l k').isSome := by
  by_cases h : k' = k
  · subst h
    simp [alookup_amodify_self]
  · simp [alookup_amodify_ne _ _ _ _ h]

theorem akeys_map_pair {κ α β : Type} (l : List (κ × α)) (g : κ × α → β) :
    (l.map fun p => (p.1, g p)).map Prod.fst = l.map Prod.fst := by
  induction l with
  | nil => simp
  | cons q rest ih => simp [ih]

theorem adel_map_pair {κ α β : Type} [DecidableEq κ] (l : List (κ × α))
    (g : κ × α → β) (k : κ) :
    adel (l.map fun p => (p.1, g p)) k = (adel l k).map fun p => (p.1, g p) := by
  induction l with
  | nil => simp [adel]
  | cons q rest ih =>
      by_cases hq : q.1 = k
      · simp [adel, hq, ih]
      · simp [adel, hq, ih]

theorem adel_sublist {κ α : Type} [DecidableEq κ] (l : List (κ × α)) (k : κ) :
    (adel l k).Sublist l := by
  induction l with
  | nil => simp [adel]
  | cons q rest ih =>
      by_cases hq : q.1 = k
      · simp [adel, hq]
        exact ih.cons q
      · simp [adel, hq]
        exact ih

theorem foldl_adel_map_pair {κ α β : Type} [DecidableEq κ]
    (ks : List κ) (l : List (κ × α)) (g : κ × α → β) :
    ks.foldl adel (l.map fun p => (p.1, g p)) =
      (ks.foldl adel l).map fun p => (p.1, g p) := by
  induction ks generalizing l with
  | nil => simp
  | cons k rest ih => simp [adel_map_pair, ih]

theorem foldl_adel_sublist {κ α : Type} [DecidableEq κ] (ks : List κ)
    (l : List (κ × α)) : (ks.foldl adel l).Sublist l := by
  induction ks generalizing l with
  | nil => simp
  | cons k rest ih => exact (ih (adel l k)).trans (adel_sublist l k)

theorem alookupD_bump {κ : Type} [DecidableEq κ] (l : List (κ × Nat))
    (k : κ) (v : Nat) (k2 : κ) :
    alookupD (bump l k v) k2 0 =
      alookupD l k2 0 + (if k = k2 then v else 0) := by
  unfold bump
  rcases h : alookup l k with _ | n
  · by_cases hk : k = k2
    · subst hk
      simp [alookupD, alookup_append, h, alookup]
    · simp [alookupD, alookup_append, hk]
      rcases h2 : alookup l k2 with _ | m
      · simp [alookup, hk]
      · simp
  · by_cases hk : k = k2
    · subst hk
      simp [alookupD, alookup_aset_self, h]
    · simp [alookupD, alookup_aset_ne _ _ _ _ (Ne.symm hk), hk]

/-! ## Stable-sort lemmas -/

theorem mem_insertDescBy {α : Type} (key : α → Nat) (x a : α) (l : List α) :
    a ∈ insertDescBy key x l ↔ a = x ∨ a ∈ l := by
  induction l with
  | nil => simp [insertDescBy]
  | cons y ys ih =>
      by_cases h : key y ≤ key x
      · simp [insertDescBy, h]
      · simp [insertDescBy, h, ih]
        tauto

theorem pairwise_insertDescBy {α : Type} (key : α → Nat) (x : α) (l : List α)
    (h : l.Pairwise (fun a b => key b ≤ key a)) :
    (insertDescBy key x l).Pairwise (fun a b => key b ≤ key a) := by
  induction l with
  | nil => simp [insertDescBy]
  | cons y ys ih =>
      rcases List.pairwise_cons.mp h with ⟨hy, hys⟩
      by_cases hxy : key y ≤ key x
      · simp only [insertDescBy, if_pos hxy]
        refine List.pairwise_cons.mpr ⟨?_, h⟩
        intro b hb
        rcases List.mem_cons.mp hb with hb | hb
        · subst hb
          exact hxy
        · exact le_trans (hy b hb) hxy
      · simp only [insertDescBy, if_neg hxy]
        refine List.pairwise_cons.mpr ⟨?_, ih hys⟩
        intro b hb
        rcases (mem_insertDescBy key x b ys).mp hb with hb | hb
        · subst hb
          exact le_of_lt (Nat.lt_of_not_le hxy)
        · exact hy b hb

theorem pairwise_sortDescBy {α : Type} (key : α → Nat) (l : List α) :
    (sortDescBy key l).Pairwise (fun a b => key b ≤ key a) := by
  induction l with
  | nil => simp [sortDescBy]
  | cons x xs ih => exact pairwise_insertDescBy key x _ ih

theorem filter_insertDescBy {α : Type} (key : α → Nat) (c : Nat) (x : α)
    (l : List α) :
    (insertDescBy key x l).filter (fun y => key y == c) =
      if key x == c then x :: l.filter (fun y => key y == c)
      else l.filter (fun y => key y == c) := by
  induction l with
  | nil =>
      simp only [insertDescBy]
      by_cases h : key x == c
      · simp [List.filter, h]
      · simp [List.filter, h]
  | cons y ys ih =>
      by_cases hxy : key y ≤ key x
      · simp only [insertDescBy, if_pos hxy]
        by_cases h : key x == c
        · simp [List.filter, h]
        · simp [List.filter, h]
      · simp only [insertDescBy, if_neg hxy]
        by_cases h : key x == c
        · have hyc : (key y == c) = false := by
            have hx : key x = c := by simpa using h
            have : key x < key y := Nat.lt_of_not_le hxy
            simp only [beq_eq_false_iff_ne, ne_eq]
            omega
          simp [List.filter, hyc, ih, h]
        · by_cases hy : key y == c
          · simp [List.filter, hy, ih, h]
          · simp [List.filter, hy, ih, h]

theorem filter_sortDescBy {α : Type} (key : α → Nat) (c : Nat) (l : List α) :
    (sortDescBy key l).filter (fun y => key y == c) =
      l.filter (fun y => key y == c) := by
  induction l with
  | nil => simp [sortDescBy]
  | cons x xs ih =>
      simp only [sortDescBy]
      rw [filter_insertDescBy]
      by_cases h : key x == c
      · simp [List.filter, h, ih]
      · simp [List.filter, h, ih]

/-! ## Histogram and statistics lemmas -/

theorem alookupD_histFold (keyf : ErrorRecord → String) :
    ∀ (l : List ErrorRecord) (acc : List (String × Nat)) (k : String),
    alookupD (l.foldl (fun a e => bump a (keyf e) e.count) acc) k 0 =
      alookupD acc k 0 +
        ((l.filter (fun e => keyf e == k)).map ErrorRecord.count).sum := by
  intro l
  induction l with
  | nil => simp
  | cons e rest ih =>
      intro acc k
      simp only [List.foldl_cons]
      rw [ih]
      rw [alookupD_bump]
      by_cases h : keyf e = k
      · simp [List.filter, h]
        omega
      · have hb : (keyf e == k) = false := by
          simpa using h
        simp [List.filter, hb, h]

theorem filterMap_if_over_filter {α β : Type} (p q : α → Bool) (f : α → β) :
    ∀ l : List α,
    (l.filter p).filterMap (fun e => if q e then some (f e) else none) =
      (l.filter (fun e => p e && q e)).map f := by
  intro l
  induction l with
  | nil => simp
  | cons e rest ih =>
      by_cases hp : p e
      · by_cases hq : q e
        · simp [List.filter, hp, hq, List.filterMap, ih]
        · simp [List.filter, hp, hq, List.filterMap, ih]
      · simp [List.filter, hp, List.filterMap, ih]

/-! ## C5 — `get_top_errors` ordering -/

/-- C5 (amended): for every aggregator state and limit, `get_top_errors`
returns records sorted by count descending; records of equal count keep the
cache's insertion order (the stable sort leaves each equal-count class in
store order), rather than being reordered by `last_seen`. -/
theorem get_top_errors_order (agg : ErrorAggregator) (limit : Nat) :
    (agg.get_top_errors limit).Pairwise (fun a b => b.count ≤ a.count) ∧
    (∀ c : Nat,
      (sortDescBy (fun p => (agg.recAt p.2).count) agg.error_cache).filter
          (fun p => (agg.recAt p.2).count == c) =
        agg.error_cache.filter (fun p => (agg.recAt p.2).count == c)) := by
  constructor
  · unfold ErrorAggregator.get_top_errors
    rw [List.pairwise_map]
    exact ((pairwise_sortDescBy (fun p => (agg.recAt p.2).count)
      agg.error_cache).sublist (List.take_sublist _ _))
  · intro c
    exact filter_sortDescBy (fun p => (agg.recAt p.2).count) c agg.error_cache

/-- C5 (counterexample): two equal-count records, the earlier-inserted one
with the older `last_seen`; `get_top_errors` returns them in insertion order,
so the claimed "ties broken by most-recent `last_seen` descending" fails on
the adjacent pair. -/
theorem get_top_errors_tie_counterexample :
    tieAggregator.get_top_errors 10 = [tieRecordA, tieRecordB] ∧
    ¬ spec_top_order tieRecordA tieRecordB := by
  constructor
  · rfl
  · decide

/-! ## C4 — histogram weighting -/

/-- C4 (amended): in the recomputed statistics, each severity (and category)
bucket equals the sum, over the history occurrences in the trailing 24 h
window, of the referenced record's current count: the histograms weight each
occurrence by the record's count, so a record with count `c` and `k` in-window
history occurrences contributes `k · c`, not `c`. -/
theorem update_statistics_histograms (st : ErrorTracker) (now : Nat) :
    (∀ sv : String,
      alookupD (st.update_statistics now).error_stats.errors_by_severity sv 0 =
        (((st.historyRecords.filter (fun e => now - 86400 < e.timestamp)).filter
          (fun e => e.severity.value == sv)).map ErrorRecord.count).sum) ∧
    (∀ cv : String,
      alookupD (st.update_statistics now).error_stats.errors_by_category cv 0 =
        (((st.historyRecords.filter (fun e => now - 86400 < e.timestamp)).filter
          (fun e => e.category.value == cv)).map ErrorRecord.count).sum) := by
  constructor
  · intro sv
    simp only [ErrorTracker.update_statistics]
    rw [alookupD_histFold (fun e => e.severity.value)]
    simp [alookupD, alookup]
  · intro cv
    simp only [ErrorTracker.update_statistics]
    rw [alookupD_histFold (fun e => e.category.value)]
    simp [alookupD, alookup]

/-- C4 (counterexample): one record tracked twice (count 2, both occurrences
inside the 24 h window) contributes 4 to its severity bucket, not the claimed
2 (=count). -/
theorem histogram_double_count_counterexample :
    alookupD (doubleTrackedTracker.update_statistics 300).error_stats.errors_by_severity
        "error" 0 = 4 ∧
    (doubleTrackedTracker.aggregator.recAt 0).count = 2 ∧ (4 : Nat) ≠ 2 :=
  ⟨rfl, rfl, by decide⟩

/-! ## C8 — mean time to resolution -/

/-- The `resolution_times` list that `_update_statistics` builds is the
resolution-span image of the history occurrences that are resolved with
non-empty notes. -/
theorem resolution_times_eq (l : List ErrorRecord) :
    (l.filter (fun e => e.resolved)).filterMap
      (fun e => if notesNonempty e.resolution_notes
        then some (((e.last_seen - e.first_seen : Nat) : Rat)) else none) =
    (l.filter (fun e => e.resolved && notesNonempty e.resolution_notes)).map
      (fun e => ((e.last_seen - e.first_seen : Nat) : Rat)) := by
  induction l with
  | nil => simp
  | cons e rest ih =>
      by_cases hp : e.resolved
      · by_cases hq : notesNonempty e.resolution_notes
        · simp [List.filter, hp, hq, List.filterMap, ih]
        · simp [List.filter, hp, hq, List.filterMap, ih]
      · simp [List.filter, hp, List.filterMap, ih]

/-- The mean-time-to-resolution formula of `_update_statistics`, over history
occurrences, when at least one qualifying occurrence exists. -/
theorem mean_time_formula (st : ErrorTracker) (now : Nat)
    (h : st.historyRecords.filter
      (fun e => e.resolved && notesNonempty e.resolution_notes) ≠ []) :
    (st.update_statistics now).error_stats.mean_time_to_resolution =
      ((st.historyRecords.filter
          (fun e => e.resolved && notesNonempty e.resolution_notes)).map
        (fun e => ((e.last_seen - e.first_seen : Nat) : Rat))).sum /
      (((st.historyRecords.filter
          (fun e => e.resolved && notesNonempty e.resolution_notes)).length : Nat) : Rat) := by
  simp only [ErrorTracker.update_statistics]
  rw [resolution_times_eq]
  have hne : (st.historyRecords.filter
      (fun e => e.resolved && notesNonempty e.resolution_notes)).map
        (fun e => ((e.last_seen - e.first_seen : Nat) : Rat)) ≠ [] := by
    intro hh
    exact h (List.map_eq_nil_iff.mp hh)
  simp [List.isEmpty_iff, hne]

/-- C8 (amended): when at least one history occurrence references a resolved
record with non-empty notes, the recomputed `mean_time_to_resolution` is the
average of `last_seen − first_seen` over exactly those history OCCURRENCES —
a record tracked `k` times contributes its resolution span `k` times — and
occurrences of resolved records with empty or missing notes are excluded. -/
theorem update_statistics_mean_resolution (st : ErrorTracker) (now : Nat)
    (h : st.historyRecords.filter
      (fun e => e.resolved && notesNonempty e.resolution_notes) ≠ []) :
    (st.update_statistics now).error_stats.mean_time_to_resolution =
      ((st.historyRecords.filter
          (fun e => e.resolved && notesNonempty e.resolution_notes)).map
        (fun e => ((e.last_seen - e.first_seen : Nat) : Rat))).sum /
      (((st.historyRecords.filter
          (fun e => e.resolved && notesNonempty e.resolution_notes)).length : Nat) : Rat) :=
  mean_time_formula st now h

/-- C8 (witness): the amended statement applied to a tracker where a
twice-tracked resolved record and a once-tracked resolved record coexist. -/
theorem update_statistics_mean_resolution_witness :
    resolutionTracker.historyRecords.filter
      (fun e => e.resolved && notesNonempty e.resolution_notes) ≠ [] ∧
    (resolutionTracker.update_statistics 300).error_stats.mean_time_to_resolution =
      ((resolutionTracker.historyRecords.filter
          (fun e => e.resolved && notesNonempty e.resolution_notes)).map
        (fun e => ((e.last_seen - e.first_seen : Nat) : Rat))).sum /
      (((resolutionTracker.historyRecords.filter
          (fun e => e.resolved && notesNonempty e.resolution_notes)).length : Nat) : Rat) :=
  ⟨by decide, update_statistics_mean_resolution resolutionTracker 300 (by decide)⟩

/-- C8 (counterexample): with record `a` resolved (span 100 s) tracked twice
and record `b` resolved (span 0 s) tracked once, the code computes the
occurrence-weighted mean 200/3, while the claim's average over the resolved
RECORDS with non-empty notes is 50. -/
theorem mean_resolution_weighting_counterexample :
    (resolutionTracker.update_statistics 300).error_stats.mean_time_to_resolution =
        200 / 3 ∧
    spec_mean_over_records resolutionTracker = 50 ∧
    ((200 : Rat) / 3 ≠ 50) := by
  have hcast : ∀ (L : List ErrorRecord),
      L.map (fun e => ((e.last_seen - e.first_seen : Nat) : Rat)) =
        (L.map (fun e => (e.last_seen - e.first_seen : Nat))).map
          (fun n : Nat => (n : Rat)) := by
    intro L
    rw [List.map_map]
    rfl
  refine ⟨?_, ?_, by norm_num⟩
  · rw [mean_time_formula resolutionTracker 300 (by decide), hcast]
    have h1 : (resolutionTracker.historyRecords.filter
        (fun e => e.resolved && notesNonempty e.resolution_notes)).map
        (fun e => (e.last_seen - e.first_seen : Nat)) = [100, 100, 0] := by decide
    have h2 : (resolutionTracker.historyRecords.filter
        (fun e => e.resolved && notesNonempty e.resolution_notes)).length = 3 := by
      decide
    rw [h1, h2]
    norm_num
  · simp only [spec_mean_over_records]
    rw [hcast]
    have h1 : (((dedupRefs resolutionTracker.error_history).map
        resolutionTracker.aggregator.recAt).filter
        (fun e => e.resolved && notesNonempty e.resolution_notes)).map
        (fun e => (e.last_seen - e.first_seen : Nat)) = [100, 0] := by decide
    have h2 : (((dedupRefs resolutionTracker.error_history).map
        resolutionTracker.aggregator.recAt).filter
        (fun e => e.resolved && notesNonempty e.resolution_notes)).length = 2 := by
      decide
    rw [h1, h2]
    norm_num

/-! ## C6 — export formats -/

/-- C6 (amended): an unsupported export format writes nothing and returns the
output path normally — no "unsupported export format" error is raised; the
supported formats write the JSON payload, respectively the specified CSV
header plus one row per history entry. -/
theorem export_errors_behaviour (st : ErrorTracker) (path fmt : String)
    (now : Nat) (h1 : fmt ≠ "json") (h2 : fmt ≠ "csv") :
    st.export_errors path fmt now = .ok ⟨none, path⟩ ∧
    st.export_errors path "csv" now =
      .ok ⟨some (.csvFile csvHeader (st.historyRecords.map csvRow)), path⟩ ∧
    (st.historyRecords.map csvRow).length = st.error_history.length ∧
    st.export_errors path "json" now =
      .ok ⟨some (.jsonExport now st.error_history.length st.error_stats
        st.historyRecords), path⟩ := by
  refine ⟨?_, rfl, by simp [ErrorTracker.historyRecords], rfl⟩
  simp [ErrorTracker.export_errors, h1, h2]

/-- C6 (witness): the amended statement at the concrete format `"xml"`. -/
theorem export_errors_behaviour_witness :
    ("xml" : String) ≠ "json" ∧
    (ErrorTracker.init false).export_errors "out.xml" "xml" 0 =
      .ok ⟨none, "out.xml"⟩ :=
  ⟨by decide,
   (export_errors_behaviour (ErrorTracker.init false) "out.xml" "xml" 0
     (by decide) (by decide)).1⟩

/-- C6 (counterexample): exporting with format `"xml"` completes normally
(`Except.ok`), writing nothing — the claimed "unsupported export format"
error is never raised. -/
theorem export_unsupported_no_raise_counterexample :
    (ErrorTracker.init false).export_errors "out.xml" "xml" 0 =
      Except.ok ⟨none, "out.xml"⟩ := rfl

/-! ## C2 — circuit-breaker transitions -/

/-- C2: with `failure_threshold = 3`, three consecutive failures (each of
which does invoke the wrapped operation) leave the breaker CLOSED, CLOSED,
then OPEN; while OPEN before `recovery_timeout` has elapsed every call fails
fast with the circuit-open error, does not invoke the operation, and leaves
the state untouched; once `recovery_timeout` has elapsed the next call
invokes the operation (the HALF_OPEN trial) — success transitions to CLOSED
with `failure_count = 0`, failure returns the breaker to OPEN. -/
theorem circuit_breaker_transitions (T t1 t2 t3 t4 t5 : Nat)
    (h4 : t4 - t3 < T) (h5 : T ≤ t5 - t3) :
    (((CircuitBreaker.make 3 T).call t1 false).2.2).state = CBState.closed ∧
    ((((CircuitBreaker.make 3 T).call t1 false).2.2).call t2 false).2.2.state
      = CBState.closed ∧
    (cbFail3 T t1 t2 t3).state = CBState.opened ∧
    ((CircuitBreaker.make 3 T).call t1 false).2.1 = true ∧
    ((((CircuitBreaker.make 3 T).call t1 false).2.2).call t2 false).2.1 = true ∧
    (((((CircuitBreaker.make 3 T).call t1 false).2.2).call t2 false).2.2.call
      t3 false).2.1 = true ∧
    (∀ b, ((cbFail3 T t1 t2 t3).call t4 b).1 = CBOutcome.circuitOpen ∧
      ((cbFail3 T t1 t2 t3).call t4 b).2.1 = false ∧
      ((cbFail3 T t1 t2 t3).call t4 b).2.2 = cbFail3 T t1 t2 t3) ∧
    ((cbFail3 T t1 t2 t3).call t5 true).2.1 = true ∧
    ((cbFail3 T t1 t2 t3).call t5 true).2.2.state = CBState.closed ∧
    ((cbFail3 T t1 t2 t3).call t5 true).2.2.failure_count = 0 ∧
    ((cbFail3 T t1 t2 t3).call t5 false).2.1 = true ∧
    ((cbFail3 T t1 t2 t3).call t5 false).2.2.state = CBState.opened := by
  have hs : cbFail3 T t1 t2 t3 = ⟨3, T, 3, t3, .opened⟩ := rfl
  have hno : (⟨3, T, 3, t3, .opened⟩ : CircuitBreaker).should_attempt_reset t4
      = false := by
    simp [CircuitBreaker.should_attempt_reset]
    omega
  have hyes : (⟨3, T, 3, t3, .opened⟩ : CircuitBreaker).should_attempt_reset t5
      = true := by
    simp [CircuitBreaker.should_attempt_reset]
    omega
  refine ⟨rfl, rfl, rfl, rfl, rfl, rfl, ?_, ?_, ?_, ?_, ?_, ?_⟩
  · intro b
    rw [hs]
    simp [CircuitBreaker.call, hno]
  · rw [hs]
    simp [CircuitBreaker.call, hyes, CircuitBreaker.on_success]
  · rw [hs]
    simp [CircuitBreaker.call, hyes, CircuitBreaker.on_success]
  · rw [hs]
    simp [CircuitBreaker.call, hyes, CircuitBreaker.on_success]
  · rw [hs]
    simp [CircuitBreaker.call, hyes, CircuitBreaker.on_failure]
  · rw [hs]
    simp [CircuitBreaker.call, hyes, CircuitBreaker.on_failure]

/-- C2 (witness): the transition theorem at `T = 10`,
failure times 0, 1, 2, a fast-fail probe at 5 and a recovery call at 20. -/
theorem circuit_breaker_transitions_witness :
    ((5 : Nat) - 2 < 10) ∧ ((10 : Nat) ≤ 20 - 2) ∧
    (((CircuitBreaker.make 3 10).call 0 false).2.2).state = CBState.closed :=
  ⟨by decide, by decide,
   (circuit_breaker_transitions 10 0 1 2 5 20 (by decide) (by decide)).1⟩

/-! ## C3 — alert deduplication -/

/-- After `should_send_alert` approves a dispatch at time `t`, its cache holds
a fresh sent-marker entry for the alert's key (the cleanup pass cannot evict
an entry whose `last_seen` is the current time). -/
theorem should_send_first_cache (agg : AlertAggregator) (alert : Alert) (t : Nat)
    (h : (agg.should_send_alert alert t).1 = true) :
    alookup (agg.should_send_alert alert t).2.alert_cache
      (alert.name ++ ":" ++ alert.level) = some ⟨1, t, t, t⟩ := by
  have hfresh : ∀ cache : List (String × AlertCacheEntry),
      alookup ((AlertAggregator.cleanup_cache
          ⟨aset cache (alert.name ++ ":" ++ alert.level) ⟨1, t, t, t⟩⟩ t).alert_cache)
        (alert.name ++ ":" ++ alert.level) = some ⟨1, t, t, t⟩ := by
    intro cache
    unfold AlertAggregator.cleanup_cache
    by_cases hlen : (aset cache (alert.name ++ ":" ++ alert.level)
        (⟨1, t, t, t⟩ : AlertCacheEntry)).length ≤ alert_max_cache_size
    · simp only [hlen, if_pos]
      exact alookup_aset_self _ _ _
    · simp only [hlen, if_neg, not_false_iff]
      apply alookup_filter _ _ _ _ (alookup_aset_self _ _ _)
      have hle : ¬ (t < t - aggregation_window * 2) :=
        Nat.not_lt.mpr (Nat.sub_le _ _)
      simp [hle]
  unfold AlertAggregator.should_send_alert at h ⊢
  rcases hl : alookup agg.alert_cache (alert.name ++ ":" ++ alert.level) with _ | entry
  · simp only [hl] at h ⊢
    exact hfresh agg.alert_cache
  · simp only [hl] at h ⊢
    by_cases hw : t - entry.last_sent < aggregation_window
    · simp [hw] at h
    · simp only [hw, if_neg, not_false_iff] at h ⊢
      exact hfresh agg.alert_cache

/-- A cache holding a fresh sent-marker from time `t` suppresses the same key
at any `u` within the window: the call returns `false` and only bumps the
entry. -/
theorem should_send_suppressed (agg1 : AlertAggregator) (alert : Alert)
    (t u : Nat)
    (hc : alookup agg1.alert_cache (alert.name ++ ":" ++ alert.level) =
      some ⟨1, t, t, t⟩)
    (hwin : u - t < aggregation_window) :
    agg1.should_send_alert alert u =
      (false, ⟨aset agg1.alert_cache (alert.name ++ ":" ++ alert.level)
        ⟨2, t, u, t⟩⟩) := by
  unfold AlertAggregator.should_send_alert
  simp only [hc]
  simp [hwin]

/-- C3 (amended): deduplication holds on the `AlertAggregator` path — when
`should_send_alert` approves an alert at time `t`, a second alert with the
same `(name, level)` within the aggregation window is not approved, and only
the cache entry's suppressed-count is incremented (to 2, `last_seen`
refreshed).  It is this path, used by `AlertingService`, that deduplicates;
the `ErrorTracker` callback installed via `set_alert_callback` is reached
without it (see the counterexample). -/
theorem alert_suppression (agg : AlertAggregator) (alert : Alert) (t u : Nat)
    (hfirst : (agg.should_send_alert alert t).1 = true)
    (hwin : u - t < aggregation_window) :
    ((agg.should_send_alert alert t).2.should_send_alert alert u).1 = false ∧
    alookup ((agg.should_send_alert alert t).2.should_send_alert alert u).2.alert_cache
      (alert.name ++ ":" ++ alert.level) = some ⟨2, t, u, t⟩ := by
  have hc := should_send_first_cache agg alert t hfirst
  have h2 := should_send_suppressed _ alert t u hc hwin
  rw [h2]
  exact ⟨rfl, alookup_aset_self _ _ _⟩

/-- C3 (witness): the amended suppression statement on an empty cache,
first alert at `t = 100`, duplicate at `u = 200`. -/
theorem alert_suppression_witness :
    ((AlertAggregator.mk []).should_send_alert ⟨"n", "L", "m", 0, []⟩ 100).1 = true ∧
    ((200 : Nat) - 100 < aggregation_window) ∧
    (((AlertAggregator.mk []).should_send_alert ⟨"n", "L", "m", 0, []⟩ 100).2.should_send_alert
      ⟨"n", "L", "m", 0, []⟩ 200).1 = false :=
  ⟨by decide, by decide,
   (alert_suppression ⟨[]⟩ ⟨"n", "L", "m", 0, []⟩ 100 200 (by decide) (by decide)).1⟩

/-- C3 (counterexample): with the callback installed, two CRITICAL
occurrences of the same error 100 s apart (well inside the 300 s window) are
BOTH dispatched to the callback by `_check_alert_conditions` — two alerts
with identical `(name, level)`, not the claimed single dispatch. -/
theorem tracker_alert_dedup_counterexample :
    twoCriticalTracker.dispatched.length = 2 ∧
    twoCriticalTracker.dispatched.map Alert.name =
      ["critical_error", "critical_error"] ∧
    twoCriticalTracker.dispatched.map Alert.level = ["CRITICAL", "CRITICAL"] ∧
    ((1100 : Nat) - 1000 < aggregation_window) :=
  ⟨rfl, rfl, rfl, by decide⟩

/-! ## C1 — aggregation of identical errors -/

/-- `generate_fingerprint` depends on the context only through
`function_name`, `module_name` and `line_number`; in particular
`additional_data` never enters the fingerprint. -/
theorem generate_fingerprint_context_eq (msg exc stack : String)
    (c1 c2 : ErrorContext) (h1 : c1.function_name = c2.function_name)
    (h2 : c1.module_name = c2.module_name)
    (h3 : c1.line_number = c2.line_number) :
    generate_fingerprint msg exc stack c1 = generate_fingerprint msg exc stack c2 := by
  unfold generate_fingerprint
  rw [h1, h2, h3]

/-- The very first `track_error` call on a fresh tracker inserts the candidate
record as canonical, with reference 0. -/
theorem track_error_fresh_init (msg exc stack : String) (ctx : ErrorContext)
    (sev : Option ErrorSeverity) (cat : Option ErrorCategory) (t : Nat) :
    (ErrorTracker.init false).track_error msg exc stack (some ctx) sev cat t =
      (0, ⟨⟨10000, [(0, firstRecord msg exc stack ctx sev cat t 0)],
            [(generate_fingerprint msg exc stack ctx, 0)],
            [(generate_fingerprint msg exc stack ctx, 1)]⟩,
          [0], initialStats, 1, false, []⟩) := rfl

/-- A `track_error` call whose fingerprint is already the (single) cached one:
the existing record is updated in place and its reference returned; only the
aggregator, the history and the fresh counter change. -/
theorem track_error_existing (st : ErrorTracker) (msg exc stack : String)
    (ctx : ErrorContext) (sev : Option ErrorSeverity)
    (cat : Option ErrorCategory) (t : Nat) (fp : String) (ref0 : Nat)
    (r : ErrorRecord) (c : Nat)
    (hfp : generate_fingerprint msg exc stack ctx = fp)
    (hcache : st.aggregator.error_cache = [(fp, ref0)])
    (hrecs : st.aggregator.recs = [(ref0, r)])
    (hcounts : st.aggregator.error_counts = [(fp, c)])
    (hmax : st.aggregator.max_errors = 10000)
    (hcb : st.callback_set = false) :
    st.track_error msg exc stack (some ctx) sev cat t =
      (ref0, ⟨⟨10000, [(ref0, { r with count := r.count + 1, last_seen := t })],
              [(fp, ref0)], [(fp, c + 1)]⟩,
          (if 50000 < (st.error_history ++ [ref0]).length
            then (st.error_history ++ [ref0]).drop 1
            else st.error_history ++ [ref0]),
          st.error_stats, st.next_ref + 1, false, st.dispatched⟩) := by
  obtain ⟨agg, hist, stats, n, cb, disp⟩ := st
  obtain ⟨mx, recs, cache, counts⟩ := agg
  simp only at hcache hrecs hcounts hmax hcb
  subst hcache hrecs hcounts hmax hcb
  unfold ErrorTracker.track_error ErrorAggregator.add_error
    ErrorTracker.check_alert_conditions
  simp only [Option.getD_some, hfp]
  simp [alookup, bump, aset, amodify]

/-- Closed form for repeated tracking of one signature against a tracker
whose aggregator holds exactly that signature's canonical record. -/
theorem trackRepeat_existing (msg exc stack : String) (ctx : ErrorContext)
    (sev : Option ErrorSeverity) (cat : Option ErrorCategory) (fp : String)
    (ref0 : Nat) (hfp : generate_fingerprint msg exc stack ctx = fp) :
    ∀ (ts : List Nat) (st : ErrorTracker) (r : ErrorRecord) (c : Nat),
    st.aggregator.error_cache = [(fp, ref0)] →
    st.aggregator.recs = [(ref0, r)] →
    st.aggregator.error_counts = [(fp, c)] →
    st.aggregator.max_errors = 10000 →
    st.callback_set = false →
    (trackRepeat msg exc stack ctx sev cat ts st).2 =
      List.replicate ts.length ref0 ∧
    (trackRepeat msg exc stack ctx sev cat ts st).1.aggregator =
      ⟨10000,
       [(ref0, { r with count := r.count + ts.length, last_seen := ts.getLastD r.last_seen })],
       [(fp, ref0)], [(fp, c + ts.length)]⟩ := by
  intro ts
  induction ts with
  | nil =>
      intro st r c h1 h2 h3 h4 h5
      obtain ⟨agg, hist, stats, n, cb, disp⟩ := st
      obtain ⟨mx, rc, ca, co⟩ := agg
      simp only at h1 h2 h3 h4
      subst h1 h2 h3 h4
      exact ⟨rfl, rfl⟩
  | cons t ts ih =>
      intro st r c h1 h2 h3 h4 h5
      have hstep := track_error_existing st msg exc stack ctx sev cat t fp ref0
        r c hfp h1 h2 h3 h4 h5
      have hrec := ih ((st.track_error msg exc stack (some ctx) sev cat t).2)
        { r with count := r.count + 1, last_seen := t } (c + 1)
        (by rw [hstep]) (by rw [hstep]) (by rw [hstep]) (by rw [hstep])
        (by rw [hstep])
      constructor
      · show ((st.track_error msg exc stack (some ctx) sev cat t).1 ::
          (trackRepeat msg exc stack ctx sev cat ts
            (st.track_error msg exc stack (some ctx) sev cat t).2).2) = _
        rw [hrec.1, hstep]
        simp [List.replicate]
      · show (trackRepeat msg exc stack ctx sev cat ts
            (st.track_error msg exc stack (some ctx) sev cat t).2).1.aggregator = _
        rw [hrec.2]
        have hcount : r.count + 1 + ts.length = r.count + (ts.length + 1) := by
          omega
        simp [hcount]
        refine ⟨?_, by omega⟩
        cases ts with
        | nil => rfl
        | cons a ts2 =>
            rw [List.getLast?_cons_cons]
            cases h : (a :: ts2).getLast? with
            | none => simp at h
            | some x => rfl

/-- C1: tracking the same signature (message, exception type, stack trace,
context — and the same optional severity/category) N ≥ 1 times from a fresh
tracker leaves exactly ONE cached record for that fingerprint, never N; its
count is N, its `first_seen` is the first call's time, its `last_seen` is the
last call's time, and every call — including every call after the first —
returned the same canonical reference 0 (the first record's identity). -/
theorem track_error_aggregation (msg exc stack : String) (ctx : ErrorContext)
    (sev : Option ErrorSeverity) (cat : Option ErrorCategory) (t : Nat)
    (ts : List Nat) :
    (trackRepeat msg exc stack ctx sev cat (t :: ts)
        (ErrorTracker.init false)).1.aggregator.error_cache =
      [(generate_fingerprint msg exc stack ctx, 0)] ∧
    ((trackRepeat msg exc stack ctx sev cat (t :: ts)
        (ErrorTracker.init false)).1.aggregator.recAt 0).count = ts.length + 1 ∧
    ((trackRepeat msg exc stack ctx sev cat (t :: ts)
        (ErrorTracker.init false)).1.aggregator.recAt 0).last_seen =
      ts.getLastD t ∧
    ((trackRepeat msg exc stack ctx sev cat (t :: ts)
        (ErrorTracker.init false)).1.aggregator.recAt 0).first_seen = t ∧
    ((trackRepeat msg exc stack ctx sev cat (t :: ts)
        (ErrorTracker.init false)).1.aggregator.recAt 0).id = 0 ∧
    (trackRepeat msg exc stack ctx sev cat (t :: ts)
        (ErrorTracker.init false)).2 = List.replicate (ts.length + 1) 0 := by
  have hrec := trackRepeat_existing msg exc stack ctx sev cat
    (generate_fingerprint msg exc stack ctx) 0 rfl ts
    ((ErrorTracker.init false).track_error msg exc stack (some ctx) sev cat t).2
    (firstRecord msg exc stack ctx sev cat t 0) 1
    (by rw [track_error_fresh_init]) (by rw [track_error_fresh_init])
    (by rw [track_error_fresh_init]) (by rw [track_error_fresh_init])
    (by rw [track_error_fresh_init])
  have hshape : (trackRepeat msg exc stack ctx sev cat (t :: ts)
      (ErrorTracker.init false)).1.aggregator =
      ⟨10000,
       [(0, { firstRecord msg exc stack ctx sev cat t 0 with count := 1 + ts.length, last_seen := ts.getLastD t })],
       [(generate_fingerprint msg exc stack ctx, 0)],
       [(generate_fingerprint msg exc stack ctx, 1 + ts.length)]⟩ := by
    show (trackRepeat msg exc stack ctx sev cat ts
      ((ErrorTracker.init false).track_error msg exc stack (some ctx) sev cat t).2).1.aggregator = _
    rw [hrec.2]
    simp [firstRecord]
  have hrefs : (trackRepeat msg exc stack ctx sev cat (t :: ts)
      (ErrorTracker.init false)).2 = List.replicate (ts.length + 1) 0 := by
    show (((ErrorTracker.init false).track_error msg exc stack (some ctx) sev cat t).1 ::
      (trackRepeat msg exc stack ctx sev cat ts
        ((ErrorTracker.init false).track_error msg exc stack (some ctx) sev cat t).2).2) = _
    rw [hrec.1, track_error_fresh_init]
    simp [List.replicate]
  refine ⟨?_, ?_, ?_, ?_, ?_, hrefs⟩ <;>
    simp [hshape, ErrorAggregator.recAt, alookup, firstRecord, Nat.add_comm]

/-! ## C7 — safe_execute -/

/-- The attempt loop of `safe_execute` against an always-failing operation:
every attempt is tracked, each one landing on the SAME canonical record
(the attempt metadata sits in `additional_data`, which the fingerprint
ignores), whose count grows by one per attempt; the fallback value is
returned once the attempts are exhausted. -/
theorem safeExecuteGo_fail {α : Type} (e : PyException) (fname : String)
    (fb : α) (op : Nat → Except PyException α) (max_att now : Nat)
    (fp : String) (ref0 : Nat)
    (hop : ∀ i, op i = .error e)
    (hfp : ∀ a, generate_fingerprint e.message e.exception_type e.stack_trace
      (safeExecuteContext fname a max_att) = fp) :
    ∀ (rem attempt : Nat) (st : ErrorTracker) (r : ErrorRecord) (c : Nat),
    st.aggregator.error_cache = [(fp, ref0)] →
    st.aggregator.recs = [(ref0, r)] →
    st.aggregator.error_counts = [(fp, c)] →
    st.aggregator.max_errors = 10000 →
    st.callback_set = false →
    st.error_history.length + rem ≤ 50000 →
    (safeExecuteGo op fname fb max_att now rem attempt st).1 = fb ∧
    (safeExecuteGo op fname fb max_att now rem attempt st).2.aggregator.error_cache
      = [(fp, ref0)] ∧
    ((safeExecuteGo op fname fb max_att now rem attempt st).2.aggregator.recAt
      ref0).count = r.count + rem ∧
    (safeExecuteGo op fname fb max_att now rem attempt st).2.error_history =
      st.error_history ++ List.replicate rem ref0 := by
  intro rem
  induction rem with
  | zero =>
      intro attempt st r c h1 h2 h3 h4 h5 h6
      refine ⟨rfl, h1, ?_, by simp [safeExecuteGo]⟩
      simp [safeExecuteGo, ErrorAggregator.recAt, h2, alookup]
  | succ rem ih =>
      intro attempt st r c h1 h2 h3 h4 h5 h6
      have hstep := track_error_existing st e.message e.exception_type
        e.stack_trace (safeExecuteContext fname (attempt + 1) max_att) none none
        now fp ref0 r c (hfp (attempt + 1)) h1 h2 h3 h4 h5
      have hlen : ¬ (50000 < (st.error_history ++ [ref0]).length) := by
        simp only [List.length_append, List.length_cons, List.length_nil]
        omega
      have hunf : safeExecuteGo op fname fb max_att now (rem + 1) attempt st =
          safeExecuteGo op fname fb max_att now rem (attempt + 1)
            (st.track_exception e
              (some (safeExecuteContext fname (attempt + 1) max_att)) now).2 := by
        simp only [safeExecuteGo, hop attempt]
      rw [hunf]
      unfold ErrorTracker.track_exception
      rw [hstep]
      rw [if_neg hlen]
      have hrec := ih (attempt + 1)
        ⟨⟨10000, [(ref0, { r with count := r.count + 1, last_seen := now })],
          [(fp, ref0)], [(fp, c + 1)]⟩,
         st.error_history ++ [ref0], st.error_stats, st.next_ref + 1, false,
         st.dispatched⟩
        { r with count := r.count + 1, last_seen := now } (c + 1)
        rfl rfl rfl rfl rfl
        (by simp only [List.length_append, List.length_cons, List.length_nil]; omega)
      refine ⟨hrec.1, hrec.2.1, ?_, ?_⟩
      · rw [hrec.2.2.1]
        simp only []
        omega
      · rw [hrec.2.2.2]
        simp [List.replicate]

/-- C7 (amended): for an operation failing on every attempt, `safe_execute`
tracks each of the `retry_count + 1` attempts — every attempt appends one
history occurrence — but the occurrences are DEDUPLICATED into one aggregated
record (the per-attempt context goes only into `additional_data`, which the
fingerprint ignores), whose count equals the number of attempts; only after
all attempts fail is `fallback_value` returned.  A success on the first
attempt returns the operation's result immediately, with the tracker
untouched. -/
theorem safe_execute_dedup (e : PyException) (fname : String) (fb : Nat)
    (retry_count now : Nat) (hrc : retry_count + 1 ≤ 50000) :
    (safe_execute (ErrorTracker.init false) (fun _ => .error e) fname fb
      retry_count now).1 = fb ∧
    (safe_execute (ErrorTracker.init false) (fun _ => .error e) fname fb
      retry_count now).2.aggregator.error_cache =
      [(generate_fingerprint e.message e.exception_type e.stack_trace
        (safeExecuteContext fname 1 (retry_count + 1)), 0)] ∧
    ((safe_execute (ErrorTracker.init false) (fun _ => .error e) fname fb
      retry_count now).2.aggregator.recAt 0).count = retry_count + 1 ∧
    (safe_execute (ErrorTracker.init false) (fun _ => .error e) fname fb
      retry_count now).2.error_history = List.replicate (retry_count + 1) 0 ∧
    (∀ (op : Nat → Except PyException Nat) (v : Nat), op 0 = .ok v →
      safe_execute (ErrorTracker.init false) op fname fb retry_count now =
        (v, ErrorTracker.init false)) := by
  have hfp : ∀ a, generate_fingerprint e.message e.exception_type e.stack_trace
      (safeExecuteContext fname a (retry_count + 1)) =
      generate_fingerprint e.message e.exception_type e.stack_trace
        (safeExecuteContext fname 1 (retry_count + 1)) := by
    intro a
    exact generate_fingerprint_context_eq _ _ _ _ _ rfl rfl rfl
  have hunf : safe_execute (ErrorTracker.init false)
      (fun _ => (.error e : Except PyException Nat)) fname fb retry_count now =
      safeExecuteGo (fun _ => .error e) fname fb (retry_count + 1) now
        retry_count 1
        ((ErrorTracker.init false).track_error e.message e.exception_type
          e.stack_trace (some (safeExecuteContext fname 1 (retry_count + 1)))
          none none now).2 := by
    simp only [safe_execute, safeExecuteGo, ErrorTracker.track_exception]
  rw [hunf, track_error_fresh_init]
  have hrec := safeExecuteGo_fail e fname fb (fun _ => .error e)
    (retry_count + 1) now
    (generate_fingerprint e.message e.exception_type e.stack_trace
      (safeExecuteContext fname 1 (retry_count + 1))) 0
    (fun _ => rfl) hfp retry_count 1
    ⟨⟨10000, [(0, firstRecord e.message e.exception_type e.stack_trace
        (safeExecuteContext fname 1 (retry_count + 1)) none none now 0)],
      [(generate_fingerprint e.message e.exception_type e.stack_trace
        (safeExecuteContext fname 1 (retry_count + 1)), 0)],
      [(generate_fingerprint e.message e.exception_type e.stack_trace
        (safeExecuteContext fname 1 (retry_count + 1)), 1)]⟩,
     [0], initialStats, 1, false, []⟩
    (firstRecord e.message e.exception_type e.stack_trace
      (safeExecuteContext fname 1 (retry_count + 1)) none none now 0) 1
    rfl rfl rfl rfl rfl (by simp; omega)
  refine ⟨hrec.1, hrec.2.1, ?_, ?_, ?_⟩
  · rw [hrec.2.2.1]
    simp [firstRecord]
    omega
  · rw [hrec.2.2.2]
    simp [List.replicate]
  · intro op v hv
    simp [safe_execute, safeExecuteGo, hv]

/-- C7 (witness): the amended statement at `retry_count = 1`. -/
theorem safe_execute_dedup_witness :
    (1 : Nat) + 1 ≤ 50000 ∧
    (safe_execute (ErrorTracker.init false)
      (fun _ => .error sampleException) "myop" (42 : Nat) 1 500).1 = 42 :=
  ⟨by decide,
   (safe_execute_dedup sampleException "myop" 42 1 500 (by decide)).1⟩

/-- C7 (counterexample): two failed attempts of the same operation produce
TWO history occurrences but a single aggregated record with count 2 — not the
claimed one independent tracked record per attempt. -/
theorem safe_execute_single_record_counterexample :
    failingSafeExecute.2.aggregator.error_cache.length = 1 ∧
    (failingSafeExecute.2.aggregator.recAt 0).count = 2 ∧
    failingSafeExecute.2.error_history = [0, 0] ∧
    failingSafeExecute.1 = 42 :=
  ⟨rfl, rfl, rfl, rfl⟩

/-! ## C9 — aggregator map invariant -/

/-- Updating one value of a keyed map, pointwise: if `g'` agrees with `g`
except at the unique binding `(k, ref)` where it is one larger, the pair-map
under `g'` is the `aset` update of the pair-map under `g`. -/
theorem map_update_pointwise (l : List (String × Nat)) (g g' : String × Nat → Nat)
    (k : String) (ref : Nat)
    (hfind : alookup l k = some ref)
    (hkeys : (l.map Prod.fst).Nodup)
    (hother : ∀ p ∈ l, p ≠ (k, ref) → g' p = g p)
    (hthis : g' (k, ref) = g (k, ref) + 1) :
    l.map (fun p => (p.1, g' p)) =
      aset (l.map (fun p => (p.1, g p))) k (g (k, ref) + 1) := by
  induction l with
  | nil => simp [alookup] at hfind
  | cons q rest ih =>
      by_cases hq : q.1 = k
      · simp [alookup, hq] at hfind
        have hqe : q = (k, ref) := by
          cases q
          simp_all
        subst hqe
        simp only [List.map_cons, aset, if_pos rfl]
        rw [hthis]
        congr 1
        apply List.map_congr_left
        intro p hp
        have hkne : p.1 ≠ k := by
          simp only [List.map_cons, List.nodup_cons] at hkeys
          intro hh
          exact hkeys.1 (hh ▸ List.mem_map_of_mem Prod.fst hp)
        have hpne : p ≠ (k, ref) := by
          intro hh
          exact hkne (by rw [hh])
        rw [hother p (List.mem_cons_of_mem _ hp) hpne]
      · simp [alookup, hq] at hfind
        simp only [List.map_cons, aset, if_neg hq]
        have hqne : q ≠ (k, ref) := by
          intro hh
          exact hq (by rw [hh])
        rw [hother q (List.mem_cons_self _ _) hqne]
        congr 1
        apply ih hfind
        · simp only [List.map_cons, List.nodup_cons] at hkeys
          exact hkeys.2
        · intro p hp hne
          exact hother p (List.mem_cons_of_mem _ hp) hne

/-- Deleting any key list from both aggregator maps (what an eviction pass
does) preserves the invariant. -/
theorem AggInv_erase (mx : Nat) (recs : List (Nat × ErrorRecord))
    (cache counts : List (String × Nat)) (ks : List String)
    (h : AggInv ⟨mx, recs, cache, counts⟩) :
    AggInv ⟨mx, recs, List.foldl adel cache ks, List.foldl adel counts ks⟩ := by
  obtain ⟨h1, h2, h3, h4⟩ := h
  simp only [ErrorAggregator.recAt] at h1
  refine ⟨?_, ?_, ?_, ?_⟩
  · show List.foldl adel counts ks = _
    simp only [ErrorAggregator.recAt]
    rw [h1, foldl_adel_map_pair]
  · exact h2.sublist ((foldl_adel_sublist _ _).map Prod.fst)
  · exact h3.sublist ((foldl_adel_sublist _ _).map Prod.snd)
  · intro p hp
    exact h4 p ((foldl_adel_sublist _ _).subset hp)

/-- Cleanup (eviction) preserves the aggregator invariant. -/
theorem AggInv_cleanup (agg : ErrorAggregator) (h : AggInv agg) :
    AggInv agg.cleanup := by
  obtain ⟨mx, recs, cache, counts⟩ := agg
  exact AggInv_erase mx recs cache counts _ h

/-- `add_error` preserves the aggregator invariant, for a candidate record as
`track_error` builds it: `count = 1` and a heap-fresh id. -/
theorem AggInv_add (agg : ErrorAggregator) (rec : ErrorRecord)
    (h : AggInv agg) (hcount : rec.count = 1)
    (hfresh : alookup agg.recs rec.id = none) :
    AggInv (agg.add_error rec).2 := by
  obtain ⟨mx, recs, cache, counts⟩ := agg
  obtain ⟨h1, h2, h3, h4⟩ := h
  simp only [ErrorAggregator.recAt] at h1
  simp only at h1 h2 h3 h4 hfresh
  unfold ErrorAggregator.add_error
  rcases hc : alookup cache rec.fingerprint with _ | ref
  · -- fresh fingerprint: append to heap and both maps, then maybe cleanup
    simp only [hc]
    have hbase : AggInv ⟨mx, recs ++ [(rec.id, rec)],
        cache ++ [(rec.fingerprint, rec.id)], counts ++ [(rec.fingerprint, 1)]⟩ := by
      have hlive : ∀ p ∈ cache,
          alookup (recs ++ [(rec.id, rec)]) p.2 = alookup recs p.2 := by
        intro p hp
        rcases hv : alookup recs p.2 with _ | v
        · have := h4 p hp
          rw [hv] at this
          simp at this
        · rw [alookup_append, hv]
      have hnew : alookup (recs ++ [(rec.id, rec)]) rec.id = some rec := by
        rw [alookup_append, hfresh]
        simp [alookup]
      refine ⟨?_, ?_, ?_, ?_⟩
      · show counts ++ [(rec.fingerprint, 1)] = _
        simp only [ErrorAggregator.recAt]
        rw [List.map_append, h1]
        congr 1
        · apply List.map_congr_left
          intro p hp
          rw [hlive p hp]
        · simp [hnew, hcount]
      · simp only [List.map_append, List.map_cons, List.map_nil]
        rw [List.nodup_append]
        refine ⟨h2, List.nodup_singleton _, ?_⟩
        intro k hk
        have hnm := alookup_none_not_mem cache rec.fingerprint hc
        simp only [List.mem_singleton]
        intro hh
        subst hh
        exact hnm hk
      · simp only [List.map_append, List.map_cons, List.map_nil]
        rw [List.nodup_append]
        refine ⟨h3, List.nodup_singleton _, ?_⟩
        intro v hv
        simp only [List.mem_singleton]
        intro hh
        subst hh
        rcases List.mem_map.mp hv with ⟨p, hp, hpv⟩
        have := h4 p hp
        rw [hpv, hfresh] at this
        simp at this
      · intro p hp
        rcases List.mem_append.mp hp with hp | hp
        · show (alookup (recs ++ [(rec.id, rec)]) p.2).isSome = true
          rw [hlive p hp]
          exact h4 p hp
        · simp only [List.mem_singleton] at hp
          subst hp
          show (alookup (recs ++ [(rec.id, rec)]) rec.id).isSome = true
          rw [hnew]
          rfl
    by_cases hlen : mx < (cache ++ [(rec.fingerprint, rec.id)]).length
    · simp only [hlen, if_pos]
      exact AggInv_cleanup _ hbase
    · simp only [hlen, if_neg, not_false_iff]
      exact hbase
  · -- cached fingerprint: in-place update of the canonical record
    simp only [hc]
    have hmem : (rec.fingerprint, ref) ∈ cache := alookup_mem _ _ _ hc
    have hlive := h4 _ hmem
    rcases hv : alookup recs ref with _ | r0
    · rw [hv] at hlive
      simp at hlive
    · refine ⟨?_, h2, h3, ?_⟩
      · show bump counts rec.fingerprint 1 = _
        simp only [ErrorAggregator.recAt]
        have hcounts : alookup counts rec.fingerprint =
            some (((alookup recs ref).getD blankRecord).count) := by
          rw [h1]
          exact alookup_map_of_alookup _ _ _ _ hc
        unfold bump
        rw [hcounts]
        conv_lhs => rw [h1]
        have hupd := map_update_pointwise cache
          (fun p => ((alookup recs p.2).getD blankRecord).count)
          (fun p => ((alookup (amodify recs ref (fun r =>
            { r with count := r.count + 1, last_seen := rec.timestamp })) p.2).getD
              blankRecord).count)
          rec.fingerprint ref hc h2 ?_ ?_
        · exact hupd.symm
        · intro p hp hne
          have hrefne : p.2 ≠ ref := by
            intro hh
            exact hne (List.inj_on_of_nodup_map h3 hp hmem hh)
          simp only []
          rw [alookup_amodify_ne _ _ _ _ hrefne]
        · simp only []
          rw [alookup_amodify_self, hv]
          simp
      · intro p hp
        show (alookup (amodify recs ref _) p.2).isSome = true
        rw [alookup_isSome_amodify]
        exact h4 p hp

theorem AggInv_reachable (agg : ErrorAggregator) (h : AggReachable agg) :
    AggInv agg := by
  induction h with
  | init n => exact ⟨rfl, List.nodup_nil, List.nodup_nil, by simp [ErrorAggregator.init]⟩
  | step agg rec _ hcount hfresh ih => exact AggInv_add agg rec ih hcount hfresh
  | cleanup agg _ ih => exact AggInv_cleanup agg ih

/-- C9: in every reachable aggregator state, `error_counts` has exactly the
key sequence of `error_cache`, and for every cached fingerprint the stored
count equals the canonical record's `count`. -/
theorem aggregator_counts_invariant (agg : ErrorAggregator)
    (h : AggReachable agg) :
    agg.error_counts.map Prod.fst = agg.error_cache.map Prod.fst ∧
    (∀ fp ref r, alookup agg.error_cache fp = some ref →
      alookup agg.recs ref = some r →
      alookup agg.error_counts fp = some r.count) := by
  have hinv := AggInv_reachable agg h
  constructor
  · rw [hinv.1, akeys_map_pair]
  · intro fp ref r hfp hrec
    rw [hinv.1]
    rw [alookup_map_of_alookup (fun p => (agg.recAt p.2).count) _ _ _ hfp]
    simp [ErrorAggregator.recAt, hrec]

/-- C9 (witness): the invariant on a concrete reachable two-record state. -/
theorem aggregator_counts_invariant_witness :
    AggReachable tieAggregator ∧
    tieAggregator.error_counts.map Prod.fst =
      tieAggregator.error_cache.map Prod.fst := by
  have h1 : AggReachable (ErrorAggregator.init 10000) := .init 10000
  have h2 := AggReachable.step _ tieRecordA h1 rfl rfl
  have h3 := AggReachable.step _ tieRecordB h2 rfl (by decide)
  exact ⟨h3, (aggregator_counts_invariant tieAggregator h3).1⟩

/-! ## C10 — resolve_error frame conditions -/

/-- C10: on a tracker whose history references are live, `resolve_error`
behaves as a pure frame update.  If some history record carries the id, the
call returns `true` and the only change in the whole tracker is that record's
`resolved := true` and `resolution_notes := notes` (its other fields, every
other record, both aggregator maps, the history, the statistics, the counter,
the callback flag and the dispatch log are untouched).  If no record carries
the id, the call returns `false` and the state is unchanged. -/
theorem resolve_error_frame (st : ErrorTracker) (eid : Nat) (notes : String)
    (hwf : ∀ ref ∈ st.error_history, (alookup st.aggregator.recs ref).isSome) :
    (∀ r, st.get_error_by_id eid = some r →
      (st.resolve_error eid notes).1 = true ∧
      ∃ ref, st.findRef eid = some ref ∧
        alookup (st.resolve_error eid notes).2.aggregator.recs ref =
          some { r with resolved := true, resolution_notes := some notes } ∧
        (∀ ref2, ref2 ≠ ref →
          alookup (st.resolve_error eid notes).2.aggregator.recs ref2 =
            alookup st.aggregator.recs ref2) ∧
        (st.resolve_error eid notes).2.aggregator.error_cache =
          st.aggregator.error_cache ∧
        (st.resolve_error eid notes).2.aggregator.error_counts =
          st.aggregator.error_counts ∧
        (st.resolve_error eid notes).2.aggregator.max_errors =
          st.aggregator.max_errors ∧
        (st.resolve_error eid notes).2.error_history = st.error_history ∧
        (st.resolve_error eid notes).2.error_stats = st.error_stats ∧
        (st.resolve_error eid notes).2.next_ref = st.next_ref ∧
        (st.resolve_error eid notes).2.callback_set = st.callback_set ∧
        (st.resolve_error eid notes).2.dispatched = st.dispatched) ∧
    (st.get_error_by_id eid = none →
      (st.resolve_error eid notes).1 = false ∧
      (st.resolve_error eid notes).2 = st) := by
  constructor
  · intro r hr
    unfold ErrorTracker.get_error_by_id at hr
    rcases hfind : st.findRef eid with _ | ref
    · rw [hfind] at hr
      simp at hr
    · rw [hfind] at hr
      have hrm : st.aggregator.recAt ref = r := by
        simpa using hr
      have href : ref ∈ st.error_history := by
        have := List.mem_of_find?_eq_some hfind
        exact this
      have hlive := hwf ref href
      rcases hv : alookup st.aggregator.recs ref with _ | r0
      · rw [hv] at hlive
        simp at hlive
      · have hr0 : r0 = r := by
          rw [ErrorAggregator.recAt, hv] at hrm
          simpa using hrm
        subst hr0
        unfold ErrorTracker.resolve_error
        rw [hfind]
        refine ⟨rfl, ref, rfl, ?_, ?_, rfl, rfl, rfl, rfl, rfl, rfl, rfl, rfl⟩
        · simp only []
          rw [alookup_amodify_self, hv]
          rfl
        · intro ref2 hne
          simp only []
          rw [alookup_amodify_ne _ _ _ _ hne]
  · intro hnone
    unfold ErrorTracker.get_error_by_id at hnone
    rcases hfind : st.findRef eid with _ | ref
    · unfold ErrorTracker.resolve_error
      rw [hfind]
      exact ⟨rfl, rfl⟩
    · rw [hfind] at hnone
      simp at hnone

/-- C10 (witness): resolving an existing record id returns `true` on a
concrete state (all hypotheses discharged by evaluation). -/
theorem resolve_error_frame_witness :
    (doubleTrackedTracker.resolve_error 0 "fixed").1 = true :=
  ((resolve_error_frame doubleTrackedTracker 0 "fixed" (by decide)).1
    (doubleTrackedTracker.aggregator.recAt 0) (by decide)).1

end CustomerSnapshot
